import Mathlib

/-!
# Verification of the Bet module (frame/bet/src/lib.rs)

A shallow embedding of the betting/settlement runtime module. Balances and
block numbers are `Nat` (the mock runtime instantiates both as `u64`; the
arithmetic in the claims stays far below 2^64, and subtraction sites are
guarded by the same conditions as in the source). Storage maps become
functions, storage items become fields of an explicit state record, and the
`while` loop of `calculate_new_balance` becomes a fuel-free recursion on
`end - b`.
-/

set_option autoImplicit false

namespace Bet

/-- The per-account betting state (`enum State` in the source). -/
inductive State where
  | Idle : State
  | BeganAt : Nat → State
  | EndingAt : Nat → State
deriving DecidableEq, Repr

/-- Result of consolidating a position (`enum ConsolidatedState`). -/
inductive ConsolidatedState where
  | Idle : ConsolidatedState
  | AboutToBegin : ConsolidatedState
  | JustBegan : ConsolidatedState
  | AboutToEnd : ConsolidatedState
deriving DecidableEq, Repr

/-- Result of a balance projection (`enum BetResult<Balance>`). -/
inductive BetResult where
  | Success : Nat → BetResult
  | Wipeout : Nat → BetResult
deriving DecidableEq, Repr

/-- A position (`struct Betting<BlockNumber, Balance>`). -/
structure Betting where
  state : State
  locked_until : Option Nat
  balance : Nat
deriving DecidableEq, Repr

/-- The global storage touched by round settlement (`decl_storage!` items
`Target`, `TargetAttenuation`, `Index`, `Pot`, `Total`, `Incoming`,
`Outgoing`, `Payouts`). The `Payouts` map is a total function returning
`none` where no entry was inserted. -/
structure BetState where
  target : Nat
  attenuation : Nat
  index : Nat
  pot : Nat
  total : Nat
  incoming : Nat
  outgoing : Nat
  payouts : Nat → Option (Nat × Nat)

/-- The mean used at settlement:
`prices.iter().fold(default, |sum, &item| sum + item) / samples.into()`. -/
def priceMean (samples : Nat) (prices : List Nat) : Nat :=
  (prices.foldl (· + ·) 0) / samples

/-- One pass of the `while b < end` loop of `calculate_new_balance`
(lines 466-487), structurally recursive on the iteration count `fuel`
(the loop increments `b` once per iteration, so it runs exactly `e - b`
times): walks rounds `b, b+1, ...`, threading the accumulator
`new_balance`; note the payout of each round is computed from the original
`balance` argument, as in the source
(`((balance << 32) / total_stake * pot) >> 32`). -/
def calcLoopF (payouts : Nat → Option (Nat × Nat)) (balance : Nat) :
    Nat → Nat → Nat → BetResult
  | 0, new_balance, _ => BetResult.Success new_balance
  | fuel + 1, new_balance, b =>
      match payouts b with
      | some (total_stake, pot) =>
          calcLoopF payouts balance fuel
            (new_balance + (((balance <<< 32) / total_stake * pot) >>> 32)) (b + 1)
      | none => BetResult.Wipeout (new_balance >>> 1)

/-- The loop of `calculate_new_balance` walking rounds `b ≤ j < e`. -/
def calcLoop (payouts : Nat → Option (Nat × Nat)) (balance new_balance b e : Nat) :
    BetResult :=
  calcLoopF payouts balance (e - b) new_balance b

/-- `Module::calculate_new_balance` (lines 455-488). -/
def calculate_new_balance (payouts : Nat → Option (Nat × Nat))
    (balance b e : Nat) : BetResult :=
  if balance = 0 then BetResult.Wipeout balance
  else calcLoop payouts balance balance b e

/-- `Module::consolidate` (lines 410-452), restricted to the position update
(the `deposit_creating`/`slash` reconciliation against the external ledger
changes no field of the position and is external to this module's storage). -/
def consolidate (payouts : Nat → Option (Nat × Nat)) (now : Nat)
    (betting : Betting) : Betting × ConsolidatedState :=
  match betting.state with
  | State.BeganAt n =>
      if n < now then
        match calculate_new_balance payouts betting.balance n now with
        | BetResult.Success b =>
            ({ betting with state := State.BeganAt now, balance := b },
              ConsolidatedState.JustBegan)
        | BetResult.Wipeout b =>
            ({ betting with
                state := State.BeganAt now
                locked_until := none
                balance := b },
              ConsolidatedState.Idle)
      else if n = now then (betting, ConsolidatedState.JustBegan)
      else (betting, ConsolidatedState.AboutToBegin)
  | State.EndingAt n =>
      if n ≤ now then
        match calculate_new_balance payouts betting.balance (n - 1) n with
        | BetResult.Success b =>
            ({ betting with state := State.Idle, balance := b },
              ConsolidatedState.Idle)
        | BetResult.Wipeout b =>
            ({ betting with
                state := State.Idle
                locked_until := none
                balance := b },
              ConsolidatedState.Idle)
      else (betting, ConsolidatedState.AboutToEnd)
  | State.Idle => (betting, ConsolidatedState.Idle)

/-- `fn bet(origin)` (lines 218-274): returns the updated position, the new
`Incoming` and `Outgoing` aggregates, and whether the entry was removed (the
`balance_at_stake_is_zero` flag; when it is `true` the source removes the
`Bets` entry and the external lock, otherwise it re-applies the lock). -/
def bet (payouts : Nat → Option (Nat × Nat)) (current free_balance : Nat)
    (betting : Betting) (incoming outgoing : Nat) :
    Betting × Nat × Nat × Bool :=
  let next := current + 1
  let res := consolidate payouts current betting
  let b0 := res.1
  if b0.balance = 0 ∧ res.2 ≠ ConsolidatedState.Idle then
    (b0, incoming, outgoing, true)
  else
    match res.2 with
    | ConsolidatedState.Idle =>
        let b1 := { b0 with state := State.BeganAt next, balance := free_balance }
        (b1, incoming + b1.balance, outgoing, decide (b1.balance = 0))
    | ConsolidatedState.AboutToBegin =>
        (b0, incoming, outgoing, decide (b0.balance = 0))
    | ConsolidatedState.JustBegan =>
        (b0, incoming, outgoing, decide (b0.balance = 0))
    | ConsolidatedState.AboutToEnd =>
        let b1 := { b0 with state := State.BeganAt current }
        (b1, incoming, outgoing - b1.balance, decide (b1.balance = 0))

/-- `fn unbet(origin)` (lines 279-321): returns the updated position, the
new `Incoming` and `Outgoing`, and whether the entry was removed. -/
def unbet (payouts : Nat → Option (Nat × Nat)) (current : Nat)
    (betting : Betting) (incoming outgoing : Nat) :
    Betting × Nat × Nat × Bool :=
  let res := consolidate payouts current betting
  let b0 := res.1
  if b0.balance = 0 then
    (b0, incoming, outgoing, true)
  else
    match res.2 with
    | ConsolidatedState.JustBegan =>
        let next := current + 1
        let b1 := { b0 with
                      state := State.EndingAt next
                      locked_until := some (next + 1) }
        (b1, incoming, outgoing + b1.balance, false)
    | ConsolidatedState.AboutToBegin =>
        let b1 := { b0 with state := State.Idle }
        (b1, incoming - b1.balance, outgoing, false)
    | _ => (b0, incoming, outgoing, false)

/-- `fn collect(origin)` (lines 325-337): consolidates and reports whether
the position was deleted and the external lock released (`is_unlocked`). -/
def collect (payouts : Nat → Option (Nat × Nat)) (now : Nat)
    (betting : Betting) : Betting × Bool :=
  let b0 := (consolidate payouts now betting).1
  let is_unlocked : Bool :=
    decide (b0.state = State.Idle) &&
      (match b0.locked_until with
       | none => true
       | some l => decide (l ≤ now))
  (b0, is_unlocked)

/-- The end-of-period body of `fn on_finalize` (lines 364-392): the round
settlement performed when `ph.is_zero()`. `prices` is the sample buffer
taken at that point; `samples` is the `Samples` configuration. -/
def settleRound (samples : Nat) (prices : List Nat) (s : BetState) : BetState :=
  if s.total ≠ 0 then
    let mean := priceMean samples prices
    if mean < s.target then
      let pot := s.pot
      let accrued_outgoing := s.outgoing * (s.total + pot) / s.total
      { s with
          pot := 0,
          target := mean,
          outgoing := 0,
          total := s.total + pot + s.incoming - accrued_outgoing,
          incoming := 0,
          payouts := fun i => if i = s.index then some (s.total, pot) else s.payouts i,
          index := s.index + 1 }
    else
      { s with
          target := s.target / s.attenuation * (s.attenuation + 1),
          outgoing := 0,
          total := s.incoming,
          incoming := 0,
          index := s.index + 1 }
  else
    { s with total := s.incoming, incoming := 0, index := s.index + 1 }

/-- The share added for one win round of the replay walk, exactly as the
source computes it. -/
def winShare (balance total_stake pot : Nat) : Nat :=
  ((balance <<< 32) / total_stake * pot) >>> 32

/-- Sum of the shares that `calcLoop` adds over `n` rounds starting at `b`,
all computed from the original `balance` (a `none` round contributes 0; it
is only used under the hypothesis that all rounds in range are wins). -/
def winSum (payouts : Nat → Option (Nat × Nat)) (balance b : Nat) : Nat → Nat
  | 0 => 0
  | n + 1 =>
      (match payouts b with
       | some (total_stake, pot) => winShare balance total_stake pot
       | none => 0) + winSum payouts balance (b + 1) n

/-! ### Concrete instances used for witnesses and counterexamples -/

/-- Payout history with wins `(1, 1)` at rounds 0 and 1, nothing after. -/
def pEx : Nat → Option (Nat × Nat) := fun j => if j < 2 then some (1, 1) else none

/-- Payout history that is a win `(1, 1)` at every round. -/
def pWin : Nat → Option (Nat × Nat) := fun _ => some (1, 1)

/-- Payout history: win at round 0, wipeout at round 1, wins after. -/
def pC3 : Nat → Option (Nat × Nat) :=
  fun j => if j = 1 then none else some (1, 1)

/-- A variant of `pC3` that agrees with it up to round 1 and differs after. -/
def pC3b : Nat → Option (Nat × Nat) :=
  fun j => if j = 1 then none else if j < 1 then some (1, 1) else some (2, 3)

/-- Empty payout history. -/
def pNone : Nat → Option (Nat × Nat) := fun _ => none

/-- A settlement state about to win: target 120, two samples 80 and 100. -/
def sW : BetState :=
  { target := 120, attenuation := 10, index := 0, pot := 7,
    total := 10, incoming := 3, outgoing := 4, payouts := pNone }

/-- A settlement state about to lose: target 120, attenuation 10. -/
def sL : BetState :=
  { target := 120, attenuation := 10, index := 2, pot := 5,
    total := 10, incoming := 3, outgoing := 4, payouts := pNone }

/-- The two-consecutive-losses scenario state: target 120, attenuation 10. -/
def s6 : BetState :=
  { target := 120, attenuation := 10, index := 0, pot := 0,
    total := 1, incoming := 1, outgoing := 0, payouts := pNone }

/-- A settlement state with no active stake (`total = 0`). -/
def s0 : BetState :=
  { target := 120, attenuation := 10, index := 1, pot := 5,
    total := 0, incoming := 7, outgoing := 2, payouts := pNone }

/-- A position scheduled to exit at round 3 ("about to end" before round 3). -/
def bEnd : Betting :=
  { state := State.EndingAt 3, locked_until := some 4, balance := 6 }

/-! ### Helper lemmas about the replay loop -/

theorem calcLoop_stop (payouts : Nat → Option (Nat × Nat))
    (balance new_balance b e : Nat) (h : ¬ b < e) :
    calcLoop payouts balance new_balance b e = BetResult.Success new_balance := by
  unfold calcLoop
  rw [show e - b = 0 by omega]
  rfl

theorem calcLoop_none (payouts : Nat → Option (Nat × Nat))
    (balance new_balance b e : Nat) (h : b < e) (hp : payouts b = none) :
    calcLoop payouts balance new_balance b e
      = BetResult.Wipeout (new_balance >>> 1) := by
  unfold calcLoop
  obtain ⟨n, hn⟩ : ∃ n, e - b = n + 1 := ⟨e - b - 1, by omega⟩
  rw [hn]
  simp [calcLoopF, hp]

theorem calcLoop_some (payouts : Nat → Option (Nat × Nat))
    (balance new_balance b e t p : Nat) (h : b < e) (hp : payouts b = some (t, p)) :
    calcLoop payouts balance new_balance b e
      = calcLoop payouts balance (new_balance + winShare balance t p) (b + 1) e := by
  unfold calcLoop
  obtain ⟨n, hn⟩ : ∃ n, e - b = n + 1 := ⟨e - b - 1, by omega⟩
  rw [hn, show e - (b + 1) = n by omega]
  simp [calcLoopF, hp, winShare]

/-- The replay loop over `n` rounds that are all wins adds the sum of the
per-round shares, each computed from the original `balance`. -/
theorem calcLoop_winSum (payouts : Nat → Option (Nat × Nat)) (balance : Nat) :
    ∀ (n b new_balance : Nat),
      (∀ j, j < n → (payouts (b + j)).isSome = true) →
      calcLoop payouts balance new_balance b (b + n)
        = BetResult.Success (new_balance + winSum payouts balance b n) := by
  intro n
  induction n with
  | zero =>
      intro b new_balance _
      rw [calcLoop_stop payouts balance new_balance b (b + 0) (by omega)]
      simp [winSum]
  | succ m ih =>
      intro b new_balance hall
      have hs : (payouts b).isSome = true := by
        have := hall 0 (by omega)
        simpa using this
      rcases Option.isSome_iff_exists.mp hs with ⟨⟨t, p⟩, hp⟩
      rw [calcLoop_some payouts balance new_balance b (b + (m + 1)) t p (by omega) hp]
      have he : b + (m + 1) = (b + 1) + m := by omega
      rw [he, ih (b + 1) (new_balance + winShare balance t p)
        (fun j hj => by
          have := hall (j + 1) (by omega)
          simpa [Nat.add_assoc, Nat.add_comm 1 j] using this)]
      simp [winSum, hp, Nat.add_assoc]

/-- The replay loop, walking rounds that are all wins until the first
`none` round, wipes out with the accumulated-then-halved balance. -/
theorem calcLoop_wipeout (payouts : Nat → Option (Nat × Nat)) (balance e : Nat) :
    ∀ (m b new_balance : Nat),
      (∀ j, b ≤ j → j < b + m → (payouts j).isSome = true) →
      payouts (b + m) = none → b + m < e →
      calcLoop payouts balance new_balance b e
        = BetResult.Wipeout ((new_balance + winSum payouts balance b m) >>> 1) := by
  intro m
  induction m with
  | zero =>
      intro b new_balance _ hnone hlt
      rw [calcLoop_none payouts balance new_balance b e (by omega)
        (by simpa using hnone)]
      simp [winSum]
  | succ m ih =>
      intro b new_balance hall hnone hlt
      have hs : (payouts b).isSome = true := hall b (le_refl b) (by omega)
      rcases Option.isSome_iff_exists.mp hs with ⟨⟨t, p⟩, hp⟩
      rw [calcLoop_some payouts balance new_balance b e t p (by omega) hp]
      rw [ih (b + 1) (new_balance + winShare balance t p)
        (fun j hj1 hj2 => hall j (by omega) (by omega))
        (by rw [show b + 1 + m = b + (m + 1) by omega]; exact hnone)
        (by omega)]
      simp [winSum, hp, Nat.add_assoc]

/-- `winSum` only reads the payout history on `[b, b + n)`. -/
theorem winSum_congr (payouts payouts2 : Nat → Option (Nat × Nat)) (balance : Nat) :
    ∀ (n b : Nat), (∀ j, b ≤ j → j < b + n → payouts2 j = payouts j) →
      winSum payouts2 balance b n = winSum payouts balance b n := by
  intro n
  induction n with
  | zero => intro b _; simp [winSum]
  | succ m ih =>
      intro b hagree
      have hb : payouts2 b = payouts b := hagree b (le_refl b) (by omega)
      simp only [winSum, hb, ih (b + 1) (fun j hj1 hj2 => hagree j (by omega) (by omega))]

/-! ### Claim theorems -/

/-- C1: at a round-boundary settlement with nonzero `total` and mean below
`target` (a win round), the pot is emptied, `target` becomes the mean,
`accrued_outgoing = outgoing * (total + pot) / total` is deducted so that
the new `total` is `total + pot + incoming - accrued_outgoing`, `incoming`
and `outgoing` reset to zero, and `payouts` records
`(total_before, pot_before)` at the settling round index. -/
theorem settle_win_round (samples : Nat) (prices : List Nat) (s : BetState)
    (htotal : s.total ≠ 0) (hwin : priceMean samples prices < s.target) :
    (settleRound samples prices s).pot = 0 ∧
    (settleRound samples prices s).target = priceMean samples prices ∧
    (settleRound samples prices s).total
      = s.total + s.pot + s.incoming - s.outgoing * (s.total + s.pot) / s.total ∧
    (settleRound samples prices s).incoming = 0 ∧
    (settleRound samples prices s).outgoing = 0 ∧
    (settleRound samples prices s).payouts s.index = some (s.total, s.pot) := by
  simp [settleRound, htotal, hwin]

theorem settle_win_round_witness :
    sW.total ≠ 0 ∧ priceMean 2 [80, 100] < sW.target ∧
    (settleRound 2 [80, 100] sW).pot = 0 ∧
    (settleRound 2 [80, 100] sW).target = 90 ∧
    (settleRound 2 [80, 100] sW).total = 14 ∧
    (settleRound 2 [80, 100] sW).payouts 0 = some (10, 7) := by
  have h := settle_win_round 2 [80, 100] sW (by decide) (by decide)
  exact ⟨by decide, by decide, h.1, h.2.1, h.2.2.1, h.2.2.2.2.2⟩

/-- C4: at a round-boundary settlement with nonzero `total` and mean at or
above `target` (a loss/wipeout round), `outgoing` is forced to zero, the new
`total` is the prior `incoming`, `incoming` resets to zero, `target` becomes
`target / attenuation * (attenuation + 1)`, and the payout history at the
settling round index reads `none` (nothing is inserted there). -/
theorem settle_loss_round (samples : Nat) (prices : List Nat) (s : BetState)
    (htotal : s.total ≠ 0) (hlose : s.target ≤ priceMean samples prices)
    (hfresh : s.payouts s.index = none) :
    (settleRound samples prices s).outgoing = 0 ∧
    (settleRound samples prices s).total = s.incoming ∧
    (settleRound samples prices s).incoming = 0 ∧
    (settleRound samples prices s).target
      = s.target / s.attenuation * (s.attenuation + 1) ∧
    (settleRound samples prices s).payouts s.index = none := by
  have hnot : ¬ priceMean samples prices < s.target := not_lt.mpr hlose
  simp [settleRound, htotal, hnot, hfresh]

theorem settle_loss_round_witness :
    sL.total ≠ 0 ∧ sL.target ≤ priceMean 2 [200, 200] ∧
    (settleRound 2 [200, 200] sL).outgoing = 0 ∧
    (settleRound 2 [200, 200] sL).total = 3 ∧
    (settleRound 2 [200, 200] sL).incoming = 0 ∧
    (settleRound 2 [200, 200] sL).target = 132 ∧
    (settleRound 2 [200, 200] sL).payouts 2 = none := by
  have h := settle_loss_round 2 [200, 200] sL (by decide) (by decide) rfl
  exact ⟨by decide, by decide, h.1, h.2.1, h.2.2.1, h.2.2.2.1, h.2.2.2.2⟩

/-- C6 counterexample: from target 120 with attenuation 10, two consecutive
loss rounds yield target 132 and then 143 (since `132 / 10 * 11 = 13 * 11 =
143` under integer division), not 145 as the claim states. -/
theorem target_two_losses_cex :
    s6.target = 120 ∧ s6.attenuation = 10 ∧ s6.total ≠ 0 ∧
    s6.target ≤ priceMean 2 [200, 200] ∧
    (settleRound 2 [200, 200] s6).total ≠ 0 ∧
    (settleRound 2 [200, 200] s6).target ≤ priceMean 2 [300, 300] ∧
    (settleRound 2 [200, 200] s6).target = 132 ∧
    (settleRound 2 [300, 300] (settleRound 2 [200, 200] s6)).target = 143 ∧
    (143 : Nat) ≠ 145 := by
  refine ⟨rfl, rfl, by decide, by decide, by decide, by decide, rfl, rfl, by decide⟩

/-- C6 (amended): starting from target 120 with attenuation 10, two
consecutive loss rounds produce target `120 / 10 * 11 = 132` after the first
loss and `132 / 10 * 11 = 143` after the second, with integer-division
truncation applied at each step. -/
theorem target_two_losses (samples : Nat) (p1 p2 : List Nat) (s : BetState)
    (ht : s.target = 120) (ha : s.attenuation = 10) (h0 : s.total ≠ 0)
    (hm1 : s.target ≤ priceMean samples p1)
    (h0b : (settleRound samples p1 s).total ≠ 0)
    (hm2 : (132 : Nat) ≤ priceMean samples p2) :
    (settleRound samples p1 s).target = 132 ∧
    (settleRound samples p2 (settleRound samples p1 s)).target = 143 := by
  have key : ∀ (prices : List Nat) (t a : Nat) (s1 : BetState), s1.total ≠ 0 →
      s1.target = t → s1.attenuation = a → t ≤ priceMean samples prices →
      (settleRound samples prices s1).target = t / a * (a + 1) ∧
      (settleRound samples prices s1).attenuation = a := by
    intro prices t a s1 hT hTt hTa hm
    have hnot : ¬ priceMean samples prices < t := not_lt.mpr hm
    constructor
    · simp [settleRound, hT, hTt, hTa, hnot]
    · simp [settleRound, hT, hTt, hTa, hnot]
  obtain ⟨h1t, h1a⟩ := key p1 120 10 s h0 ht ha (ht ▸ hm1)
  have h1t132 : (settleRound samples p1 s).target = 132 := by rw [h1t]
  obtain ⟨h2t, _⟩ :=
    key p2 132 10 (settleRound samples p1 s) h0b h1t132 h1a hm2
  refine ⟨h1t132, ?_⟩
  rw [h2t]

theorem target_two_losses_witness :
    (settleRound 2 [200, 200] s6).target = 132 ∧
    (settleRound 2 [300, 300] (settleRound 2 [200, 200] s6)).target = 143 :=
  target_two_losses 2 [200, 200] [300, 300] s6 rfl rfl (by decide) (by decide)
    (by decide) (by decide)

/-- C10: a settlement with zero `total` inserts no payout entry (it only
moves `incoming` into `total` and advances the index), a loss settlement
inserts no entry either; the lookup at the settled round therefore stays
`none` in both cases, and a replay whose walk reaches that round stops there
and returns the balance halved — the replay rule cannot distinguish a
skipped zero-total round from a wipeout round. -/
theorem settle_none_indistinguishable (samples : Nat) (prices : List Nat)
    (s : BetState) (hfresh : s.payouts s.index = none)
    (hcase : s.total = 0 ∨ s.target ≤ priceMean samples prices) :
    (settleRound samples prices s).payouts = s.payouts ∧
    (settleRound samples prices s).payouts s.index = none ∧
    (s.total = 0 →
      (settleRound samples prices s).total = s.incoming ∧
      (settleRound samples prices s).incoming = 0 ∧
      (settleRound samples prices s).index = s.index + 1) ∧
    (∀ balance e, balance ≠ 0 → s.index < e →
      calculate_new_balance (settleRound samples prices s).payouts balance s.index e
        = BetResult.Wipeout (balance >>> 1)) := by
  have hpay : (settleRound samples prices s).payouts = s.payouts := by
    rcases hcase with h0 | hl
    · simp [settleRound, h0]
    · have hnot : ¬ priceMean samples prices < s.target := not_lt.mpr hl
      by_cases h0 : s.total = 0
      · simp [settleRound, h0]
      · simp [settleRound, h0, hnot]
  refine ⟨hpay, by rw [hpay]; exact hfresh, ?_, ?_⟩
  · intro h0
    refine ⟨?_, ?_, ?_⟩ <;> simp [settleRound, h0]
  · intro balance e hb he
    rw [hpay]
    unfold calculate_new_balance
    rw [if_neg hb]
    exact calcLoop_none s.payouts balance balance s.index e he hfresh

theorem settle_none_indistinguishable_witness :
    (settleRound 2 [70, 70] s0).payouts 1 = none ∧
    (settleRound 2 [70, 70] s0).total = 7 ∧
    (settleRound 2 [70, 70] s0).index = 2 ∧
    calculate_new_balance (settleRound 2 [70, 70] s0).payouts 9 1 5
      = BetResult.Wipeout 4 := by
  have h := settle_none_indistinguishable 2 [70, 70] s0 rfl (Or.inl rfl)
  refine ⟨h.2.1, (h.2.2.1 rfl).1, (h.2.2.1 rfl).2.2, ?_⟩
  have := h.2.2.2 9 5 (by decide) (by decide)
  simpa using this

/-- C2 counterexample: with wins `(total, pot) = (1, 1)` recorded at rounds
0 and 1, replaying `[0, 2)` from balance 1 yields 3, while two sequential
single-round replays yield 2 and then 4: the whole-range replay computes
every round's share from the original balance, so it does not compound. -/
theorem replay_compounding_cex :
    calculate_new_balance pEx 1 0 2 = BetResult.Success 3 ∧
    calculate_new_balance pEx 1 0 1 = BetResult.Success 2 ∧
    calculate_new_balance pEx 2 1 2 = BetResult.Success 4 ∧
    BetResult.Success 3 ≠ BetResult.Success 4 := by
  refine ⟨by decide, by decide, by decide, by decide⟩

/-- C2 (amended): over a range of `n ≥ 0` consecutive rounds all recorded
as wins, the whole-range replay returns the starting balance plus the sum of
the per-round shares, each computed from the ORIGINAL starting balance (not
from the compounded running balance); hence it coincides with sequential
single-round replays for `n = 1` but not in general. -/
theorem replay_win_range (payouts : Nat → Option (Nat × Nat))
    (balance b n : Nat) (hb : balance ≠ 0)
    (hall : ∀ j, j < n → (payouts (b + j)).isSome = true) :
    calculate_new_balance payouts balance b (b + n)
      = BetResult.Success (balance + winSum payouts balance b n) := by
  unfold calculate_new_balance
  rw [if_neg hb]
  exact calcLoop_winSum payouts balance n b balance hall

theorem replay_win_range_witness :
    calculate_new_balance pEx 1 0 (0 + 2)
      = BetResult.Success (1 + winSum pEx 1 0 2) :=
  replay_win_range pEx 1 0 2 (by decide) (by decide)

/-- C3: a replay with nonzero starting balance that reaches a round with no
payout record stops at that round — the result only depends on the history
up to that round, later rounds in the range are not consulted — and returns
the balance accumulated so far shifted right by one bit (halved), not
zeroed. -/
theorem replay_wipeout_stops (payouts : Nat → Option (Nat × Nat))
    (balance b k e : Nat) (hb : balance ≠ 0) (hbk : b ≤ k) (hke : k < e)
    (hnone : payouts k = none)
    (hwins : ∀ j, b ≤ j → j < k → (payouts j).isSome = true) :
    calculate_new_balance payouts balance b e
      = BetResult.Wipeout ((balance + winSum payouts balance b (k - b)) >>> 1) ∧
    (∀ (payouts2 : Nat → Option (Nat × Nat)) (e2 : Nat), k < e2 →
      (∀ j, j ≤ k → payouts2 j = payouts j) →
      calculate_new_balance payouts2 balance b e2
        = calculate_new_balance payouts balance b e) := by
  have hk : b + (k - b) = k := by omega
  have main : calculate_new_balance payouts balance b e
      = BetResult.Wipeout ((balance + winSum payouts balance b (k - b)) >>> 1) := by
    unfold calculate_new_balance
    rw [if_neg hb]
    exact calcLoop_wipeout payouts balance e (k - b) b balance
      (fun j hj1 hj2 => hwins j hj1 (by omega)) (by rw [hk]; exact hnone)
      (by omega)
  refine ⟨main, ?_⟩
  intro payouts2 e2 hke2 hagree
  have hwins2 : ∀ j, b ≤ j → j < b + (k - b) → (payouts2 j).isSome = true := by
    intro j hj1 hj2
    rw [hagree j (by omega)]
    exact hwins j hj1 (by omega)
  have main2 : calculate_new_balance payouts2 balance b e2
      = BetResult.Wipeout ((balance + winSum payouts2 balance b (k - b)) >>> 1) := by
    unfold calculate_new_balance
    rw [if_neg hb]
    exact calcLoop_wipeout payouts2 balance e2 (k - b) b balance hwins2
      (by rw [hk, hagree k (le_refl k)]; exact hnone) (by omega)
  rw [main, main2,
    winSum_congr payouts payouts2 balance (k - b) b
      (fun j hj1 hj2 => hagree j (by omega))]

theorem replay_wipeout_stops_witness :
    calculate_new_balance pC3 5 0 9
      = BetResult.Wipeout ((5 + winSum pC3 5 0 1) >>> 1) ∧
    calculate_new_balance pC3b 5 0 4 = calculate_new_balance pC3 5 0 9 ∧
    calculate_new_balance pC3 5 0 9 = BetResult.Wipeout 5 := by
  have h := replay_wipeout_stops pC3 5 0 1 9 (by decide) (by decide) (by decide)
    (by decide)
    (fun j hj1 hj2 => by
      have : j = 0 := by omega
      subst this
      decide)
  refine ⟨h.1, ?_, by decide⟩
  exact h.2 pC3b 4 (by decide)
    (fun j hj => by
      match j, hj with
      | 0, _ => decide
      | 1, _ => decide)

/-- C5: each win round of the replay walk adds
`((balance <<< 32) / total_stake * pot) >>> 32` to the running balance —
the original stake left-shifted by 32 bits, divided by the recorded total,
multiplied by the recorded pot, then right-shifted back by 32 bits; the
shifts are multiplication and division by `2 ^ 32`. -/
theorem replay_win_share (payouts : Nat → Option (Nat × Nat))
    (balance new_balance b e t p : Nat) (hlt : b < e)
    (hp : payouts b = some (t, p)) :
    calcLoop payouts balance new_balance b e
      = calcLoop payouts balance
          (new_balance + (((balance <<< 32) / t * p) >>> 32)) (b + 1) e ∧
    ((balance <<< 32) / t * p) >>> 32 = balance * 2 ^ 32 / t * p / 2 ^ 32 ∧
    (balance ≠ 0 →
      calculate_new_balance payouts balance b e
        = calcLoop payouts balance
            (balance + (((balance <<< 32) / t * p) >>> 32)) (b + 1) e) := by
  refine ⟨calcLoop_some payouts balance new_balance b e t p hlt hp, ?_, ?_⟩
  · rw [Nat.shiftLeft_eq, Nat.shiftRight_eq_div_pow]
  · intro hb
    unfold calculate_new_balance
    rw [if_neg hb]
    exact calcLoop_some payouts balance balance b e t p hlt hp

theorem replay_win_share_witness :
    calculate_new_balance pWin 5 0 1
      = calcLoop pWin 5 (5 + (((5 <<< 32) / 1 * 1) >>> 32)) 1 1 ∧
    ((5 <<< 32) / 1 * 1) >>> 32 = 5 * 2 ^ 32 / 1 * 1 / 2 ^ 32 ∧
    calculate_new_balance pWin 5 0 1 = BetResult.Success 10 := by
  have h := replay_win_share pWin 5 5 0 1 1 1 (by decide) rfl
  refine ⟨h.2.2 (by decide), h.2.1, ?_⟩
  rw [h.2.2 (by decide)]
  decide

/-- C7: `collect` deletes the position and releases the external lock
(its flag is `true`) exactly when, after consolidation at the current round
index, the state is `Idle` and `locked_until` is unset or at most the
current index; in every other case nothing is deleted or released. -/
theorem collect_deletes_iff (payouts : Nat → Option (Nat × Nat)) (now : Nat)
    (betting : Betting) :
    (collect payouts now betting).2 = true ↔
      ((consolidate payouts now betting).1.state = State.Idle ∧
        ((consolidate payouts now betting).1.locked_until = none ∨
          ∃ l, (consolidate payouts now betting).1.locked_until = some l ∧
            l ≤ now)) := by
  unfold collect
  cases hl : (consolidate payouts now betting).1.locked_until with
  | none => simp [hl]
  | some l => simp [hl]

/-- C8: when the consolidated state is "about to end" (`EndingAt n` with
`n` after the current round) and the stake is nonzero, `bet` re-enters for
the current round: state becomes `BeganAt current`, the position keeps the
already-consolidated stored balance (the result does not depend on the
live `free_balance` argument at all), `outgoing` decreases by that balance
(the scheduled exit is cancelled), `incoming` is untouched and the entry is
not removed. -/
theorem bet_about_to_end (payouts : Nat → Option (Nat × Nat))
    (current free_balance : Nat) (betting : Betting)
    (n incoming outgoing : Nat) (hst : betting.state = State.EndingAt n)
    (hn : current < n) (hb : betting.balance ≠ 0) :
    bet payouts current free_balance betting incoming outgoing
      = ({ betting with state := State.BeganAt current }, incoming,
          outgoing - betting.balance, false) := by
  have hcons : consolidate payouts current betting
      = (betting, ConsolidatedState.AboutToEnd) := by
    unfold consolidate
    rw [hst]
    simp [show ¬ n ≤ current by omega]
  unfold bet
  rw [hcons]
  simp [hb]

theorem bet_about_to_end_witness :
    bet pNone 2 99 bEnd 10 20
      = ({ state := State.BeganAt 2, locked_until := some 4, balance := 6 },
          10, 14, false) := by
  rw [bet_about_to_end pNone 2 99 bEnd 3 10 20 rfl (by decide) (by decide)]
  rfl

/-- C9: whatever the inputs, the position returned by `consolidate` has
state `Idle`, `BeganAt m` with `m` at least the current round index, or
`EndingAt m` with `m` strictly after it — never a reference to an
already-settled past round. (Every operation — `bet`, `unbet`, `collect` —
runs `consolidate` first, so its mutation logic starts from such a state.) -/
theorem consolidate_state_current (payouts : Nat → Option (Nat × Nat))
    (now : Nat) (betting : Betting) :
    (consolidate payouts now betting).1.state = State.Idle ∨
    (∃ m, (consolidate payouts now betting).1.state = State.BeganAt m ∧
      now ≤ m) ∨
    (∃ m, (consolidate payouts now betting).1.state = State.EndingAt m ∧
      now < m) := by
  rcases betting with ⟨st, lu, bal⟩
  cases st with
  | Idle => exact Or.inl rfl
  | BeganAt n =>
      by_cases h1 : n < now
      · cases hc : calculate_new_balance payouts bal n now with
        | Success b =>
            refine Or.inr (Or.inl ⟨now, ?_, le_refl now⟩)
            simp [consolidate, h1, hc]
        | Wipeout b =>
            refine Or.inr (Or.inl ⟨now, ?_, le_refl now⟩)
            simp [consolidate, h1, hc]
      · by_cases h2 : n = now
        · refine Or.inr (Or.inl ⟨n, ?_, by omega⟩)
          simp [consolidate, h1, h2]
        · refine Or.inr (Or.inl ⟨n, ?_, by omega⟩)
          simp [consolidate, h1, h2]
  | EndingAt n =>
      by_cases h1 : n ≤ now
      · cases hc : calculate_new_balance payouts bal (n - 1) n with
        | Success b =>
            refine Or.inl ?_
            simp [consolidate, h1, hc]
        | Wipeout b =>
            refine Or.inl ?_
            simp [consolidate, h1, hc]
      · refine Or.inr (Or.inr ⟨n, ?_, by omega⟩)
        simp [consolidate, h1]

end Bet
